import Mathlib

/-!
Shallow embedding of the analysis-to-mutation pipeline of the
"wherestheJIRAticket" git hook (TypeScript), for checking its
natural-language specification.

Sources embedded:
- `src/utils.ts`: `Result` helpers, `validateNonEmpty`, `truncate`,
  `sanitizeBranchName`.
- `src/git.ts`: `shouldSkipBranch`, `parseCommits`, `parseFileChanges`,
  `calculateTotals`, `analyzeGitChanges`, `createStoryBranch`.
- `src/ai-analysis.ts`: `parseAIResponse`, `createFallbackAnalysis`,
  `analyzeWithAI`.
- `src/issue-tracker.ts`: `createIssue`.
- `src/pipeline.ts`: `executeAnalysisPipeline`, the skip/hard-failure
  classification of `handlePipelineError`.

Modelling conventions: JavaScript strings are Lean `String`s over their
characters (code points; the repository only manipulates ASCII where it
matters); numbers are `Int`/`Nat`/`Rat` as appropriate, with a `JsNumber`
wrapper where `NaN` can arise (`parseInt`); a `Promise` that may reject is an
oracle value `Result α String` stored in an environment structure, so every
behaviour of the external service is a concrete environment; `console.warn`
logging is made visible by returning the list of warning messages next to the
result where a claim is about logging.
-/

namespace WTJ

/-- Two-variant outcome type of `src/types.ts` (`Result<T, E>`): the payload
constructor is `success`, the error constructor is `failure`, matching the
helper names of `src/utils.ts`. Errors are carried as their message strings. -/
inductive Result (α : Type) (ε : Type) where
  | success (data : α)
  | failure (error : ε)
deriving Repr, DecidableEq

/-- `result.success` of the TypeScript union, as a Bool. -/
def Result.isSuccess {α ε : Type} : Result α ε → Bool
  | .success _ => true
  | .failure _ => false

/-! ### Character helpers (ASCII code points, as JS operates on code units) -/

/-- `\d` of the JS regexes: an ASCII decimal digit (codes 48–57). -/
def isDigitChar (c : Char) : Bool := decide (48 ≤ c.toNat ∧ c.toNat ≤ 57)

/-- `[A-Z]` of the JS regexes: an ASCII uppercase letter (codes 65–90). -/
def isUpperAZ (c : Char) : Bool := decide (65 ≤ c.toNat ∧ c.toNat ≤ 90)

/-- `[a-z]`: an ASCII lowercase letter (codes 97–122). -/
def isLowerAZ (c : Char) : Bool := decide (97 ≤ c.toNat ∧ c.toNat ≤ 122)

/-- One character of `String.prototype.toLowerCase`, restricted to the ASCII
range the repository manipulates: `A`–`Z` maps to `a`–`z`, everything else is
unchanged. -/
def toLowerChar (c : Char) : Char :=
  if isUpperAZ c then Char.ofNat (c.toNat + 32) else c

/-- `s.toLowerCase()` (ASCII model). -/
def toLowerAscii (s : String) : String := String.mk (s.toList.map toLowerChar)

/-- `a.includes(b)`: substring containment, as contiguous-sublist membership. -/
def containsSub (s pat : String) : Bool := decide (pat.toList <:+: s.toList)

/-! ### `src/utils.ts` string utilities -/

/-- A character removed by JS `String.prototype.trim` (ASCII portion: space,
tab, line feed, carriage return, vertical tab, form feed). -/
def isJsSpace (c : Char) : Bool :=
  decide (c.toNat = 32 ∨ c.toNat = 9 ∨ c.toNat = 10 ∨ c.toNat = 13 ∨
    c.toNat = 11 ∨ c.toNat = 12)

/-- JS `value.trim()`: drop such characters from both ends. -/
def jsTrim (s : String) : String :=
  String.mk (((s.toList.dropWhile fun c => isJsSpace c).reverse.dropWhile
    fun c => isJsSpace c).reverse)

/-- `validateNonEmpty` of `src/utils.ts`: succeeds with the trimmed value when
the trimmed value is non-empty. -/
def validateNonEmpty (value : String) (fieldName : String) : Result String String :=
  if 0 < (jsTrim value).length then .success (jsTrim value)
  else .failure (fieldName ++ " cannot be empty")

/-- `truncate` of `src/utils.ts`: identity when the text fits, otherwise the
first `maxLength - 3` characters followed by an ellipsis
(`text.substring(0, maxLength - 3) + '...'`). -/
def truncate (text : String) (maxLength : Nat) : String :=
  if text.length ≤ maxLength then text
  else String.mk (text.toList.take (maxLength - 3)) ++ "..."

/-- A character kept by `sanitizeBranchName`'s character class `[a-z0-9-]`. -/
def allowedChar (c : Char) : Bool :=
  isLowerAZ c || isDigitChar c || decide (c = '-')

/-- The replace of the class `[^a-z0-9-]` (global) with a hyphen, one
character at a time. -/
def replaceDisallowed (c : Char) : Char := if allowedChar c then c else '-'

/-- The replace of `-+` (global) with `-`: collapse every run of hyphens to
one hyphen. -/
def collapseHyphens : List Char → List Char
  | [] => []
  | [c] => [c]
  | a :: b :: rest =>
    if a = '-' ∧ b = '-' then collapseHyphens (b :: rest)
    else a :: collapseHyphens (b :: rest)

/-- The `^-` half of the final replace (pattern `^-|-$`, global, with the
empty string): drop one leading hyphen. -/
def dropLeadingHyphen : List Char → List Char
  | '-' :: rest => rest
  | cs => cs

/-- The `-$` half of the final replace: drop one trailing hyphen (a leading
hyphen of the reversal). -/
def dropTrailingHyphen (cs : List Char) : List Char :=
  (dropLeadingHyphen cs.reverse).reverse

/-- The character-list pipeline of `sanitizeBranchName`: lowercase, replace
each character outside `[a-z0-9-]` with a hyphen, collapse hyphen runs, then
strip the edge hyphens (pattern `^-|-$`, global). The final replace removes
at most one hyphen at each edge, which is exactly what the JS regex does on
arbitrary strings as well ("--" loses both hyphens, "-" loses its only
one). -/
def sanitizeList (cs : List Char) : List Char :=
  dropTrailingHyphen (dropLeadingHyphen
    (collapseHyphens ((cs.map toLowerChar).map replaceDisallowed)))

/-- `sanitizeBranchName` of `src/utils.ts`. -/
def sanitizeBranchName (name : String) : String :=
  String.mk (sanitizeList name.toList)

/-- Adjacent characters that are not both hyphens — the invariant the
hyphen-run collapse establishes. -/
def HyphenFree (a b : Char) : Prop := ¬(a = '-' ∧ b = '-')

/-! ### `src/git.ts` eligibility check -/

/-- The JS regex test `/^sc-\d+/.test(branch)`: the name starts with `sc-`
followed by at least one digit (after one digit is read the pattern is
satisfied whatever follows). -/
def scStoryIdTest (s : String) : Bool :=
  match s.toList with
  | c1 :: c2 :: c3 :: c4 :: _ =>
    decide (c1 = 's') && decide (c2 = 'c') && decide (c3 = '-') && isDigitChar c4
  | _ => false

/-- Declarative reading of the `sc` regex: the character list is `s`, `c`,
a hyphen, a digit, then anything. -/
def ScPrefixForm (s : String) : Prop :=
  ∃ d rest, s.toList = 's' :: 'c' :: '-' :: d :: rest ∧ isDigitChar d = true

/-- Declarative reading of the JIRA key regex: a non-empty run of uppercase
letters, a hyphen, a digit, then anything. -/
def JiraKeyForm (s : String) : Prop :=
  ∃ us d rest, s.toList = us ++ '-' :: d :: rest ∧ us ≠ [] ∧
    (∀ c ∈ us, isUpperAZ c = true) ∧ isDigitChar d = true

/-- Tail of the `/^[A-Z]+-\d+/` matcher after its first uppercase letter:
consume further uppercase letters, then require a hyphen followed by a digit.
Deterministic maximal munch; equivalent to the backtracking regex because a
shorter `[A-Z]+` run would end on an uppercase letter, which is not `-`. -/
def jiraKeyTail : List Char → Bool
  | [] => false
  | c :: rest =>
    if isUpperAZ c then jiraKeyTail rest
    else if c = '-' then
      match rest with
      | d :: _ => isDigitChar d
      | [] => false
    else false

/-- The JS regex test `/^[A-Z]+-\d+/.test(branch)`. -/
def jiraKeyTest (s : String) : Bool :=
  match s.toList with
  | [] => false
  | c :: rest => isUpperAZ c && jiraKeyTail rest

/-- `shouldSkipBranch` of `src/git.ts`: skip when the branch already carries a
Shortcut story id (`/^sc-\d+/`), or a JIRA issue key (`/^[A-Z]+-\d+/`), or is
literally in the skip list. -/
def shouldSkipBranch (branch : String) (skipBranches : List String) : Bool :=
  if scStoryIdTest branch then true
  else if jiraKeyTest branch then true
  else if skipBranches.contains branch then true
  else false

/-! ### Data model (`src/types.ts`) -/

/-- `GitCommit` of `src/types.ts`. The `date` field holds the raw log date
string; the JS `Date` construction is not modelled (the value is never
consumed by the embedded code). -/
structure GitCommit where
  hash : String
  message : String
  author : String
  date : String
deriving Repr, DecidableEq

/-- `FileChange` of `src/types.ts`. -/
structure FileChange where
  path : String
  additions : Int
  deletions : Int
  status : String
deriving Repr, DecidableEq

/-- `GitAnalysis` of `src/types.ts` (the ChangeSet). -/
structure GitAnalysis where
  currentBranch : String
  commits : List GitCommit
  fileChanges : List FileChange
  diffContent : String
  totalAdditions : Int
  totalDeletions : Int
deriving Repr, DecidableEq

/-- `StoryAnalysis` of `src/types.ts` (the WorkItemDraft). -/
structure StoryAnalysis where
  title : String
  description : String
  storyType : String
  estimatedPoints : Int
  suggestedLabels : List String
  confidence : Rat
deriving Repr, DecidableEq

/-! ### Narrative synthesizer (`src/ai-analysis.ts`) -/

/-- The `suggestedLabels` field of the parsed JSON object: the code only asks
`Array.isArray` of it, so an absent field and a non-array value are kept as
distinct constructors, both failing that test. -/
inductive LabelsField where
  | absent
  | notArray
  | strings (l : List String)
deriving Repr, DecidableEq

/-- A generation-service response already parsed by `JSON.parse` into an
object whose consulted fields have the primitive shapes the code reads:
`title`/`description`/`storyType` strings, `estimatedPoints` a number,
`confidence` a number or absent (absent reads as `undefined`, which is falsy
like `0`). Responses whose fields are of the wrong primitive type throw inside
the validation calls and land in the same catch as a JSON parse error, covered
by `AIResponseParse.malformed`. -/
structure ParsedAIJson where
  title : String
  description : String
  storyType : String
  estimatedPoints : Int
  suggestedLabels : LabelsField
  confidence : Option Rat
deriving Repr, DecidableEq

/-- Outcome of `JSON.parse` on the service's response text. -/
inductive AIResponseParse where
  | malformed
  | object (j : ParsedAIJson)
deriving Repr, DecidableEq

/-- The JS expression `parsed.confidence || 0.5`: an absent confidence is
`undefined` (falsy) and a confidence of `0` is falsy too, so both read as
`0.5`; every other number passes through. -/
def confidenceOrHalf : Option Rat → Rat
  | none => 1/2
  | some c => if c = 0 then 1/2 else c

/-- `parseAIResponse` of `src/ai-analysis.ts`: validate title, description,
story type and estimated points, then build the draft with the raw title
truncated to 100 characters, the raw description, the labels when they are an
array (else `[]`), and `Math.max(0, Math.min(1, parsed.confidence || 0.5))`. -/
def parseAIResponse (r : AIResponseParse) : Result StoryAnalysis String :=
  match r with
  | .malformed => .failure "Failed to parse AI response"
  | .object j =>
    match validateNonEmpty j.title "title" with
    | .failure e => .failure e
    | .success _ =>
      match validateNonEmpty j.description "description" with
      | .failure e => .failure e
      | .success _ =>
        if ¬ (["feature", "bug", "chore"].contains j.storyType) then
          .failure "Invalid story type"
        else if ¬ (([1, 2, 3, 5, 8] : List Int).contains j.estimatedPoints) then
          .failure "Invalid estimated points"
        else
          .success
            { title := truncate j.title 100
              description := j.description
              storyType := j.storyType
              estimatedPoints := j.estimatedPoints
              suggestedLabels :=
                match j.suggestedLabels with
                | .strings l => l
                | _ => []
              confidence := max 0 (min 1 (confidenceOrHalf j.confidence)) }

/-- `createFallbackAnalysis` of `src/ai-analysis.ts`: the deterministic
rule-based draft derived purely from the ChangeSet. -/
def createFallbackAnalysis (gitAnalysis : GitAnalysis) : StoryAnalysis :=
  let hasTest := gitAnalysis.fileChanges.any fun f =>
    containsSub f.path "test" || containsSub f.path "spec"
  let hasUI := gitAnalysis.fileChanges.any fun f =>
    containsSub f.path ".tsx" || containsSub f.path ".vue" || containsSub f.path ".jsx"
  let hasAPI := gitAnalysis.fileChanges.any fun f =>
    containsSub f.path "api" || containsSub f.path "controller"
  let isBugFix := gitAnalysis.commits.any fun c =>
    containsSub (toLowerAscii c.message) "fix"
  let complexity : Int :=
    if 10 < gitAnalysis.fileChanges.length then 5
    else if 5 < gitAnalysis.fileChanges.length then 3
    else 1
  { title := "Work on " ++ gitAnalysis.currentBranch
    description :=
      "Changes made in branch " ++ gitAnalysis.currentBranch
        ++ "\n\nFiles changed:\n"
        ++ String.intercalate "\n" (gitAnalysis.fileChanges.map (·.path))
        ++ "\n\nCommits:\n"
        ++ String.intercalate "\n"
            (gitAnalysis.commits.map fun c => c.hash ++ ": " ++ c.message)
    storyType := if isBugFix then "bug" else "feature"
    estimatedPoints := complexity
    suggestedLabels :=
      (if hasUI then ["frontend"] else [])
        ++ (if hasAPI then ["backend"] else [])
        ++ (if hasTest then ["testing"] else [])
    confidence := 3/10 }

/-- Behaviour of the generation service as seen by `analyzeWithAI`: either the
awaited call throws (network failure, empty completion, prompt rendering
error), or it yields a response text whose JSON parse outcome is recorded. -/
inductive AIOutcome where
  | throws (e : String)
  | responds (r : AIResponseParse)
deriving Repr, DecidableEq

/-- `analyzeWithAI` of `src/ai-analysis.ts`: try the service, parse its
response; a throw or a parse/validation failure degrades to
`createFallbackAnalysis`, and both are returned as `success`. -/
def analyzeWithAI (gitAnalysis : GitAnalysis) (outcome : AIOutcome) :
    Result StoryAnalysis String :=
  match outcome with
  | .throws _ => .success (createFallbackAnalysis gitAnalysis)
  | .responds r =>
    match parseAIResponse r with
    | .success a => .success a
    | .failure _ => .success (createFallbackAnalysis gitAnalysis)

/-! ### Configuration (`src/types.ts` `AppConfig`) -/

/-- The `shortcut` sub-config of `AppConfig`. -/
structure ShortcutCfg where
  token : String
  projectId : Option Nat
  iterationId : Option Nat
  ownerId : Option String
deriving Repr, DecidableEq

/-- The `jira` sub-config of `AppConfig`. -/
structure JiraCfg where
  baseUrl : String
  email : String
  apiToken : String
  projectKey : String
  sprintId : Option Nat
  assigneeId : Option String
deriving Repr, DecidableEq

/-- The `git` sub-config of `AppConfig`. -/
structure GitCfg where
  baseBranch : String
  skipBranches : List String
deriving Repr, DecidableEq

/-- `AppConfig` of `src/types.ts` (the OpenAI token/model fields are carried
but never consulted by the embedded logic). -/
structure AppConfig where
  tracker : String
  shortcut : Option ShortcutCfg
  jira : Option JiraCfg
  openaiToken : String
  openaiModel : String
  git : GitCfg
deriving Repr, DecidableEq

/-! ### Change-set extractor (`src/git.ts`) -/

/-- One entry of the `simple-git` log result consumed by `parseCommits`. -/
structure RawLogCommit where
  hash : String
  message : String
  author_name : String
  date : String
deriving Repr, DecidableEq

/-- One entry of the `simple-git` diff summary consumed by
`parseFileChanges`. `insertions`/`deletions` are optional because the code
guards them with `|| 0`; `none` models an absent (undefined) field. -/
structure RawDiffFile where
  file : String
  insertions : Option Int
  deletions : Option Int
  binary : Bool
deriving Repr, DecidableEq

/-- The JS expression `x || 0` on an optional count: absent and `0` both read
as `0`. -/
def intOrZero : Option Int → Int
  | none => 0
  | some n => n

/-- `parseCommits` of `src/git.ts`: 7-character abbreviated hash, message,
author, date. -/
def parseCommits (logResult : List RawLogCommit) : List GitCommit :=
  logResult.map fun commit =>
    { hash := String.mk (commit.hash.toList.take 7)
      message := commit.message
      author := commit.author_name
      date := commit.date }

/-- `parseFileChanges` of `src/git.ts`: note the status is always reported as
"modified" (both arms of the source's conditional yield it). -/
def parseFileChanges (diffSummary : List RawDiffFile) : List FileChange :=
  diffSummary.map fun file =>
    { path := file.file
      additions := intOrZero file.insertions
      deletions := intOrZero file.deletions
      status := if file.binary then "modified" else "modified" }

/-- `calculateTotals` of `src/git.ts`. -/
def calculateTotals (fileChanges : List FileChange) : Int × Int :=
  (fileChanges.foldl (fun sum file => sum + file.additions) 0,
   fileChanges.foldl (fun sum file => sum + file.deletions) 0)

/-- Outcomes of the four repository reads issued by `analyzeGitChanges`: each
await may reject with an error. The three parallel reads are modelled with a
fixed inspection order (first error wins), a simplification of
`Promise.all`'s temporal first-rejection; no claim depends on which of
several simultaneous failures is reported. -/
structure GitEnv where
  currentBranchResult : Result String String
  logResult : Result (List RawLogCommit) String
  diffResult : Result String String
  diffSummaryResult : Result (List RawDiffFile) String
deriving Repr, DecidableEq

/-- `analyzeGitChanges` of `src/git.ts`: read the current branch, refuse
skipped branches, gather log/diff/summary, normalize, refuse an empty commit
list, and otherwise build the `GitAnalysis` with the diff capped to 8000
characters. -/
def analyzeGitChanges (config : AppConfig) (env : GitEnv) :
    Result GitAnalysis String :=
  match env.currentBranchResult with
  | .failure e => .failure e
  | .success currentBranch =>
    if shouldSkipBranch currentBranch config.git.skipBranches then
      .failure ("Branch " ++ currentBranch ++ " should be skipped")
    else
      match env.logResult, env.diffResult, env.diffSummaryResult with
      | .failure e, _, _ => .failure e
      | _, .failure e, _ => .failure e
      | _, _, .failure e => .failure e
      | .success logResult, .success diffResult, .success diffSummary =>
        let commits := parseCommits logResult
        let fileChanges := parseFileChanges diffSummary
        let totals := calculateTotals fileChanges
        if commits.length = 0 then
          .failure "No commits found since base branch"
        else
          .success
            { currentBranch := currentBranch
              commits := commits
              fileChanges := fileChanges
              diffContent := String.mk (diffResult.toList.take 8000)
              totalAdditions := totals.1
              totalDeletions := totals.2 }

/-! ### Branch rewriter (`src/git.ts` `createStoryBranch`) -/

/-- A JS number as it reaches the branch rewriter: an integer or `NaN`
(`parseInt` can produce `NaN`). -/
inductive JsNumber where
  | int (n : Int)
  | nan
deriving Repr, DecidableEq

/-- JS string interpolation of such a number. -/
def jsNumberToString : JsNumber → String
  | .int n => toString n
  | .nan => "NaN"

/-- The `storyId: number | string` parameter of `createStoryBranch`. -/
inductive StoryIdArg where
  | num (v : JsNumber)
  | str (s : String)
deriving Repr, DecidableEq

/-- The prefix computation of `createStoryBranch`: a string id is used as-is
(tracker-native key), a numeric id becomes `sc-` followed by the number. -/
def storyIdToBranchPre : StoryIdArg → String
  | .str s => s
  | .num v => "sc-" ++ jsNumberToString v

/-- Outcomes of the four repository mutations issued by `createStoryBranch`. -/
structure BranchEnv where
  createBranchResult : Result Unit String
  pushResult : Result Unit String
  deleteLocalResult : Result Unit String
  deleteRemoteResult : Result Unit String
deriving Repr, DecidableEq

/-- `createStoryBranch` of `src/git.ts`: compute the new name, create and
check it out (fatal on failure), push it with upstream tracking (fatal on
failure), then best-effort delete the old local and remote branches — those
two failures are caught and logged (returned here as the warning list), never
raised. -/
def createStoryBranch (currentBranch : String) (storyId : StoryIdArg)
    (env : BranchEnv) : Result String String × List String :=
  let newBranchName :=
    storyIdToBranchPre storyId ++ "-" ++ sanitizeBranchName currentBranch
  match env.createBranchResult with
  | .failure e => (.failure e, [])
  | .success _ =>
    match env.pushResult with
    | .failure e => (.failure e, [])
    | .success _ =>
      let w1 :=
        match env.deleteLocalResult with
        | .failure e =>
          ["Could not delete old branch " ++ currentBranch ++ ": " ++ e]
        | .success _ => []
      let w2 :=
        match env.deleteRemoteResult with
        | .failure e =>
          ["Could not delete remote branch " ++ currentBranch ++ ": " ++ e]
        | .success _ => []
      (.success newBranchName, w1 ++ w2)

/-! ### Tracker gateway (`src/issue-tracker.ts`) -/

/-- `ShortcutStoryResponse` of `src/types.ts`. -/
structure ShortcutStoryResponse where
  id : Nat
  app_url : String
  name : String
  story_type : String
deriving Repr, DecidableEq

/-- `JiraIssueResponse` of `src/jira-api.ts`. -/
structure JiraIssueResponse where
  id : String
  key : String
  self : String
deriving Repr, DecidableEq

/-- `CreatedIssue` of `src/issue-tracker.ts`: the id is a number (Shortcut) or
a string (Jira). -/
structure CreatedIssue where
  id : Sum Nat String
  url : String
  key : String
  type : String
deriving Repr, DecidableEq

/-- Outcomes of the tracker REST calls as the already-wrapped `Result`s that
`createShortcutStory`, `createJiraIssue` and `addIssueToSprint` return to
`createIssue`. -/
structure TrackerEnv where
  shortcutResult : Result ShortcutStoryResponse String
  jiraCreateResult : Result JiraIssueResponse String
  sprintResult : Result Unit String
deriving Repr, DecidableEq

/-- `mapStoryTypeToJiraIssueType` of `src/jira-api.ts`. -/
def mapStoryTypeToJiraIssueType (storyType : String) : String :=
  if storyType = "feature" then "Story"
  else if storyType = "bug" then "Bug"
  else if storyType = "chore" then "Task"
  else "Task"

/-- `createIssue` of `src/issue-tracker.ts`, with the `console.warn` sprint
message returned as the warning list. Dispatch on the tracker discriminant;
on the Jira path, when a sprint id is configured (JS truthiness: present and
non-zero) the add-to-sprint call is attempted and its failure is only logged;
the Jira url is synthesized as `baseUrl`/browse/`key`. -/
def createIssue (analysis : StoryAnalysis) (config : AppConfig)
    (env : TrackerEnv) : Result CreatedIssue String × List String :=
  if config.tracker = "shortcut" then
    match config.shortcut with
    | none => (.failure "Shortcut configuration is missing", [])
    | some _ =>
      match env.shortcutResult with
      | .failure e => (.failure e, [])
      | .success r =>
        (.success
          { id := .inl r.id, url := r.app_url, key := r.name,
            type := r.story_type }, [])
  else if config.tracker = "jira" then
    match config.jira with
    | none => (.failure "JIRA configuration is missing", [])
    | some j =>
      match env.jiraCreateResult with
      | .failure e => (.failure e, [])
      | .success r =>
        let warnings :=
          match j.sprintId with
          | some sprintId =>
            if sprintId ≠ 0 then
              match env.sprintResult with
              | .failure e => ["Failed to add issue to sprint: " ++ e]
              | .success _ => []
            else []
          | none => []
        (.success
          { id := .inr r.id
            url := j.baseUrl ++ "/browse/" ++ r.key
            key := r.key
            type := analysis.storyType }, warnings)
  else
    (.failure ("Unknown tracker type: " ++ config.tracker), [])

/-! ### Pipeline orchestrator (`src/pipeline.ts`) -/

/-- JS `parseInt(s, 10)`: skip leading whitespace, read an optional sign,
then the longest run of leading decimal digits; `NaN` when that run is
empty. -/
def parseIntBase10 (s : String) : JsNumber :=
  let cs := (jsTrim s).toList
  let signAndRest : Int × List Char :=
    match cs with
    | '-' :: t => (-1, t)
    | '+' :: t => (1, t)
    | t => (1, t)
  let ds := signAndRest.2.takeWhile fun c => isDigitChar c
  if ds = [] then .nan
  else
    .int (signAndRest.1 *
      Int.ofNat (ds.foldl (fun acc c => acc * 10 + (c.toNat - 48)) 0))

/-- The `createdStory` record stored in `AnalysisPipeline` (the
`ShortcutStoryResponse` shape that `executeAnalysisPipeline` fills for either
tracker, with `id` kept as it came from `CreatedIssue`). -/
structure CreatedStoryRecord where
  id : Sum Nat String
  app_url : String
  name : String
  story_type : String
deriving Repr, DecidableEq

/-- `AnalysisPipeline` of `src/types.ts`. -/
structure AnalysisPipeline where
  gitAnalysis : GitAnalysis
  storyAnalysis : StoryAnalysis
  createdStory : CreatedStoryRecord
  updatedBranch : String
deriving Repr, DecidableEq

/-- All external behaviour one pipeline run can observe. -/
structure PipelineEnv where
  git : GitEnv
  ai : AIOutcome
  tracker : TrackerEnv
  branch : BranchEnv
deriving Repr, DecidableEq

/-- The id coercion `executeAnalysisPipeline` applies before calling the
branch rewriter (`src/pipeline.ts` line 37): a number is passed through,
a string goes through `parseInt(id, 10)`. -/
def createdIdAsNumber : Sum Nat String → JsNumber
  | .inl n => .int (Int.ofNat n)
  | .inr s => parseIntBase10 s

/-- `executeAnalysisPipeline` of `src/pipeline.ts`: extractor → synthesizer →
gateway → rewriter, short-circuiting on the first failure. Note the branch
step's id argument: the pipeline passes `issueResult.data.id` when it is a
number and `parseInt(issueResult.data.id, 10)` when it is a string, so the
rewriter always receives a number. -/
def executeAnalysisPipeline (config : AppConfig) (env : PipelineEnv) :
    Result AnalysisPipeline String :=
  match analyzeGitChanges config env.git with
  | .failure e => .failure e
  | .success gitData =>
    match analyzeWithAI gitData env.ai with
    | .failure e => .failure e
    | .success aiData =>
      match (createIssue aiData config env.tracker).1 with
      | .failure e => .failure e
      | .success issueData =>
        let idArg : StoryIdArg := .num (createdIdAsNumber issueData.id)
        match (createStoryBranch gitData.currentBranch idArg env.branch).1 with
        | .failure e => .failure e
        | .success branchData =>
          .success
            { gitAnalysis := gitData
              storyAnalysis := aiData
              createdStory :=
                { id := issueData.id
                  app_url := issueData.url
                  name := issueData.key
                  story_type := issueData.type }
              updatedBranch := branchData }

/-- Terminal classification of `handlePipelineError` in `src/pipeline.ts`. -/
inductive ErrorOutcome where
  | silentSkip
  | hardFailure
deriving Repr, DecidableEq

/-- The classification decision of `handlePipelineError`: an error whose
message contains "should be skipped" or "No commits found" is reported and
the process returns normally (silent no-op); anything else exits with an
error status. -/
def classifyPipelineError (message : String) : ErrorOutcome :=
  if containsSub message "should be skipped" then .silentSkip
  else if containsSub message "No commits found" then .silentSkip
  else .hardFailure

/-! ### Concrete runs used to exercise the theorems -/

/-- A Jira configuration with a sprint id, for concrete runs. -/
def cfgJiraEx : AppConfig :=
  { tracker := "jira"
    shortcut := none
    jira := some
      { baseUrl := "https://example.atlassian.net", email := "dev@example.com"
        apiToken := "tok", projectKey := "PROJ", sprintId := some 5
        assigneeId := none }
    openaiToken := "k"
    openaiModel := "gpt-4.1"
    git := { baseBranch := "main", skipBranches := ["main", "master"] } }

/-- A full pipeline environment: Jira creation succeeds with key `PROJ-7` and
internal id string "10023", the generation service is unreachable, every
branch mutation succeeds. -/
def envJiraEx : PipelineEnv :=
  { git :=
      { currentBranchResult := .success "add-login"
        logResult := .success
          [{ hash := "abcdef1234", message := "fix: typo", author_name := "dev",
             date := "2024-01-01" }]
        diffResult := .success "diff"
        diffSummaryResult := .success [] }
    ai := .throws "ECONNREFUSED"
    tracker :=
      { shortcutResult := .failure "unused"
        jiraCreateResult := .success { id := "10023", key := "PROJ-7", self := "" }
        sprintResult := .success () }
    branch :=
      { createBranchResult := .success (), pushResult := .success ()
        deleteLocalResult := .success (), deleteRemoteResult := .success () } }

/-- The payload `executeAnalysisPipeline cfgJiraEx envJiraEx` produces. -/
def pJiraEx : AnalysisPipeline :=
  { gitAnalysis :=
      { currentBranch := "add-login"
        commits := [{ hash := "abcdef1", message := "fix: typo", author := "dev",
                      date := "2024-01-01" }]
        fileChanges := []
        diffContent := "diff"
        totalAdditions := 0
        totalDeletions := 0 }
    storyAnalysis :=
      { title := "Work on add-login"
        description :=
          "Changes made in branch add-login\n\nFiles changed:\n\n\nCommits:\nabcdef1: fix: typo"
        storyType := "bug"
        estimatedPoints := 1
        suggestedLabels := []
        confidence := 3/10 }
    createdStory :=
      { id := Sum.inr "10023"
        app_url := "https://example.atlassian.net/browse/PROJ-7"
        name := "PROJ-7"
        story_type := "bug" }
    updatedBranch := "sc-10023-add-login" }

/-- A git environment on an eligible branch whose log is empty. -/
def gitEnvNoCommitsEx : GitEnv :=
  { currentBranchResult := .success "feat-x"
    logResult := .success []
    diffResult := .success ""
    diffSummaryResult := .success [] }

/-- The spec's fallback scenario: one commit "fix: null pointer", three
changed files, one of them a `.spec.ts` file. -/
def gaScenarioEx : GitAnalysis :=
  { currentBranch := "fix-npe"
    commits := [{ hash := "abc1234", message := "fix: null pointer",
                  author := "dev", date := "2024-01-01" }]
    fileChanges :=
      [{ path := "src/auth/login.ts", additions := 4, deletions := 1,
         status := "modified" },
       { path := "src/auth/login.spec.ts", additions := 9, deletions := 0,
         status := "modified" },
       { path := "src/auth/session.ts", additions := 2, deletions := 2,
         status := "modified" }]
    diffContent := ""
    totalAdditions := 15
    totalDeletions := 3 }

/-- Branch mutations where both best-effort deletions fail. -/
def branchEnvEx : BranchEnv :=
  { createBranchResult := .success ()
    pushResult := .success ()
    deleteLocalResult := .failure "branch is checked out elsewhere"
    deleteRemoteResult := .failure "remote branch is protected" }

/-- Tracker calls where Jira creation succeeds but the sprint call fails. -/
def trackerEnvEx : TrackerEnv :=
  { shortcutResult := .failure "unused"
    jiraCreateResult := .success { id := "10023", key := "PROJ-7", self := "" }
    sprintResult := .failure "HTTP 403: forbidden" }

/-- A draft used as tracker-gateway input in concrete runs. -/
def draftEx : StoryAnalysis :=
  { title := "Work on add-login", description := "d", storyType := "bug"
    estimatedPoints := 1, suggestedLabels := [], confidence := 3/10 }

/-- A parsed service response that passes every validation but reports
confidence exactly 0. -/
def jsonConfZeroEx : ParsedAIJson :=
  { title := "Add login form", description := "Adds the login form."
    storyType := "feature", estimatedPoints := 3
    suggestedLabels := .strings ["frontend"], confidence := some 0 }

/-- A parsed service response that passes every validation, with a
non-array `suggestedLabels` field. -/
def jsonLabelsBadEx : ParsedAIJson :=
  { title := "Add login form", description := "Adds the login form."
    storyType := "feature", estimatedPoints := 3
    suggestedLabels := .notArray, confidence := some (17/20) }

/-! ## Theorems -/

/-- C1: for every ChangeSet and every behaviour of the generation service,
`analyzeWithAI` returns `success` — a service throw, a malformed response, or
a validation failure all yield `success` carrying the deterministic fallback
draft, and a valid response yields `success` carrying the parsed draft. -/
theorem analyzeWithAI_never_fails (g : GitAnalysis) (o : AIOutcome) :
    (analyzeWithAI g o).isSuccess = true ∧
    (∀ e, o = .throws e → analyzeWithAI g o = .success (createFallbackAnalysis g)) ∧
    (∀ r, o = .responds r → (parseAIResponse r).isSuccess = false →
      analyzeWithAI g o = .success (createFallbackAnalysis g)) ∧
    (∀ r a, o = .responds r → parseAIResponse r = .success a →
      analyzeWithAI g o = .success a) := by
  refine ⟨?_, ?_, ?_, ?_⟩
  · cases o with
    | throws e => rfl
    | responds r =>
      cases h : parseAIResponse r <;>
        simp [analyzeWithAI, h, Result.isSuccess]
  · intro e he
    subst he
    rfl
  · intro r hr hf
    subst hr
    cases h : parseAIResponse r with
    | success a =>
      rw [h] at hf
      exact absurd hf (by simp [Result.isSuccess])
    | failure e =>
      simp [analyzeWithAI, h]
  · intro r a hr hp
    subst hr
    simp [analyzeWithAI, hp]

/-- C1 witness: the fallback contract exercised on a concrete ChangeSet with a
malformed (non-JSON) service response. -/
theorem analyzeWithAI_never_fails_witness :
    analyzeWithAI gaScenarioEx (.responds .malformed) =
      .success (createFallbackAnalysis gaScenarioEx) :=
  (analyzeWithAI_never_fails gaScenarioEx (.responds .malformed)).2.2.1 .malformed rfl rfl

/-- C5: when create-and-checkout and push-with-upstream both succeed,
`createStoryBranch` returns `success` with the new branch name for every
outcome of the two old-branch deletions, and a failing deletion is only
logged. -/
theorem createStoryBranch_best_effort (currentBranch : String)
    (storyId : StoryIdArg) (env : BranchEnv)
    (hc : env.createBranchResult = .success ())
    (hp : env.pushResult = .success ()) :
    (createStoryBranch currentBranch storyId env).1 =
      .success (storyIdToBranchPre storyId ++ "-" ++ sanitizeBranchName currentBranch) ∧
    (∀ e, env.deleteLocalResult = .failure e →
      ("Could not delete old branch " ++ currentBranch ++ ": " ++ e) ∈
        (createStoryBranch currentBranch storyId env).2) ∧
    (∀ e, env.deleteRemoteResult = .failure e →
      ("Could not delete remote branch " ++ currentBranch ++ ": " ++ e) ∈
        (createStoryBranch currentBranch storyId env).2) := by
  unfold createStoryBranch
  rw [hc, hp]
  refine ⟨rfl, ?_, ?_⟩
  · intro e he
    rw [he]
    cases env.deleteRemoteResult <;> simp
  · intro e he
    rw [he]
    cases env.deleteLocalResult <;> simp

/-- C5 witness: a concrete run where both deletions fail and the step still
reports the new branch name. -/
theorem createStoryBranch_best_effort_witness :
    (createStoryBranch "Feat/Login" (.num (.int 42)) branchEnvEx).1 =
      .success (storyIdToBranchPre (.num (.int 42)) ++ "-" ++
        sanitizeBranchName "Feat/Login") ∧
    ("Could not delete old branch " ++ "Feat/Login" ++ ": " ++
        "branch is checked out elsewhere") ∈
      (createStoryBranch "Feat/Login" (.num (.int 42)) branchEnvEx).2 := by
  have h := createStoryBranch_best_effort "Feat/Login" (.num (.int 42)) branchEnvEx rfl rfl
  exact ⟨h.1, h.2.1 "branch is checked out elsewhere" rfl⟩

/-- C6: on the Jira path with a sprint configured, a successful primary
creation yields `success` with the normalized issue (url
`baseUrl`/browse/`key`) for every outcome of the add-to-sprint call, whose
failure is only logged. -/
theorem createIssue_sprint_best_effort (analysis : StoryAnalysis)
    (config : AppConfig) (j : JiraCfg) (sid : Nat) (resp : JiraIssueResponse)
    (env : TrackerEnv)
    (htr : config.tracker = "jira") (hj : config.jira = some j)
    (hs : j.sprintId = some sid)
    (hcr : env.jiraCreateResult = .success resp) :
    (createIssue analysis config env).1 =
      .success
        { id := .inr resp.id, url := j.baseUrl ++ "/browse/" ++ resp.key,
          key := resp.key, type := analysis.storyType } ∧
    (∀ e, env.sprintResult = .failure e → sid ≠ 0 →
      ("Failed to add issue to sprint: " ++ e) ∈
        (createIssue analysis config env).2) := by
  unfold createIssue
  rw [htr, hj, hcr]
  rw [if_neg (by decide : ¬ ("jira" : String) = "shortcut"), if_pos rfl]
  dsimp only
  rw [hs]
  dsimp only
  refine ⟨rfl, ?_⟩
  intro e he hsid
  rw [he, if_pos hsid]
  simp

/-- C6 witness: a concrete Jira run with sprint id 5 whose sprint call fails
with HTTP 403; creation still reports `success` and the failure is logged. -/
theorem createIssue_sprint_best_effort_witness :
    (createIssue draftEx cfgJiraEx trackerEnvEx).1 =
      .success
        { id := .inr "10023",
          url := "https://example.atlassian.net" ++ "/browse/" ++ "PROJ-7",
          key := "PROJ-7", type := draftEx.storyType } ∧
    ("Failed to add issue to sprint: " ++ "HTTP 403: forbidden") ∈
      (createIssue draftEx cfgJiraEx trackerEnvEx).2 := by
  have h := createIssue_sprint_best_effort draftEx cfgJiraEx
    { baseUrl := "https://example.atlassian.net", email := "dev@example.com"
      apiToken := "tok", projectKey := "PROJ", sprintId := some 5
      assigneeId := none }
    5 { id := "10023", key := "PROJ-7", self := "" } trackerEnvEx rfl rfl rfl rfl
  exact ⟨h.1, h.2 "HTTP 403: forbidden" rfl (by decide)⟩

/-- C7: on an eligible branch whose read steps succeed, an empty commit list
makes `analyzeGitChanges` fail with the no-commits error, which the
orchestrator classifies as a silent skip; and every `success` result carries a
non-empty commit list. -/
theorem analyzeGitChanges_commits (config : AppConfig) (env : GitEnv) :
    (∀ branch log diff summary,
      env.currentBranchResult = .success branch →
      shouldSkipBranch branch config.git.skipBranches = false →
      env.logResult = .success log →
      env.diffResult = .success diff →
      env.diffSummaryResult = .success summary →
      log = [] →
      analyzeGitChanges config env = .failure "No commits found since base branch" ∧
      classifyPipelineError "No commits found since base branch" = .silentSkip) ∧
    (∀ a, analyzeGitChanges config env = .success a → a.commits ≠ []) := by
  constructor
  · intro branch log diff summary hb hskip hlog hdiff hsum hempty
    subst hempty
    refine ⟨?_, by decide⟩
    unfold analyzeGitChanges
    rw [hb]
    dsimp only
    rw [hskip, hlog, hdiff, hsum]
    simp [parseCommits]
  · intro a ha
    unfold analyzeGitChanges at ha
    cases hcb : env.currentBranchResult with
    | failure e => rw [hcb] at ha; exact absurd ha (by simp)
    | success branch =>
      rw [hcb] at ha
      dsimp only at ha
      cases hskip : shouldSkipBranch branch config.git.skipBranches with
      | true =>
        rw [hskip] at ha
        exact absurd ha (by simp)
      | false =>
        rw [hskip] at ha
        simp only [Bool.false_eq_true, if_false] at ha
        cases hlr : env.logResult with
        | failure e => rw [hlr] at ha; exact absurd ha (by simp)
        | success log =>
          cases hdr : env.diffResult with
          | failure e => rw [hlr, hdr] at ha; exact absurd ha (by simp)
          | success diff =>
            cases hsr : env.diffSummaryResult with
            | failure e => rw [hlr, hdr, hsr] at ha; exact absurd ha (by simp)
            | success summary =>
              rw [hlr, hdr, hsr] at ha
              dsimp only at ha
              by_cases hlen : (parseCommits log).length = 0
              · rw [if_pos hlen] at ha
                exact absurd ha (by simp)
              · rw [if_neg hlen] at ha
                injection ha with h
                subst h
                intro hnil
                apply hlen
                dsimp only at hnil
                rw [hnil]
                rfl

/-- C7 witness: a concrete eligible branch fully merged into base (empty
log): the failure is produced and classified as a silent skip. -/
theorem analyzeGitChanges_commits_witness :
    analyzeGitChanges cfgJiraEx gitEnvNoCommitsEx =
      .failure "No commits found since base branch" ∧
    classifyPipelineError "No commits found since base branch" = .silentSkip :=
  (analyzeGitChanges_commits cfgJiraEx gitEnvNoCommitsEx).1
    "feat-x" [] "" [] rfl rfl rfl rfl rfl rfl

/-- Helper: the draft `parseAIResponse` builds when all four validations
pass. -/
theorem parseAIResponse_eq_of_valid (j : ParsedAIJson)
    (ht : 0 < (jsTrim j.title).length)
    (hd : 0 < (jsTrim j.description).length)
    (hk : (["feature", "bug", "chore"].contains j.storyType) = true)
    (hp : (([1, 2, 3, 5, 8] : List Int).contains j.estimatedPoints) = true) :
    parseAIResponse (.object j) = .success
      { title := truncate j.title 100
        description := j.description
        storyType := j.storyType
        estimatedPoints := j.estimatedPoints
        suggestedLabels :=
          match j.suggestedLabels with
          | .strings l => l
          | _ => []
        confidence := max 0 (min 1 (confidenceOrHalf j.confidence)) } := by
  unfold parseAIResponse validateNonEmpty
  dsimp only
  rw [if_pos ht]
  dsimp only
  rw [if_pos hd]
  dsimp only
  rw [if_neg (not_not_intro hk), if_neg (not_not_intro hp)]

/-- Helper: the ellipsis truncation never exceeds 100 characters. -/
theorem truncate_length_le (t : String) : (truncate t 100).length ≤ 100 := by
  unfold truncate
  split
  · omega
  · have h3 : ("..." : String).length = 3 := rfl
    rw [String.length_append, String.length_mk, List.length_take, h3]
    have ht : t.toList.length = t.length := rfl
    rw [ht]
    exact Nat.add_le_add_right (le_trans (Nat.min_le_left 97 t.length) (by omega)) 3

/-- C9 (amended): a validated response yields a draft whose title is the
100-character truncation of the response title and whose confidence is the
clamp to the unit interval of the response confidence — except that an absent
or zero confidence reads as 0.5 before clamping (the JS `c || 0.5`); hence
title length at most 100 and confidence within the unit interval. -/
theorem parseAIResponse_title_confidence (j : ParsedAIJson)
    (ht : 0 < (jsTrim j.title).length)
    (hd : 0 < (jsTrim j.description).length)
    (hk : (["feature", "bug", "chore"].contains j.storyType) = true)
    (hp : (([1, 2, 3, 5, 8] : List Int).contains j.estimatedPoints) = true) :
    ∃ a, parseAIResponse (.object j) = .success a ∧
      a.title = truncate j.title 100 ∧
      a.title.length ≤ 100 ∧
      a.confidence = max 0 (min 1 (confidenceOrHalf j.confidence)) ∧
      0 ≤ a.confidence ∧ a.confidence ≤ 1 := by
  refine ⟨_, parseAIResponse_eq_of_valid j ht hd hk hp, rfl, ?_, rfl, ?_, ?_⟩
  · exact truncate_length_le j.title
  · exact le_max_left 0 _
  · exact max_le (by norm_num) (min_le_left 1 _)

/-- C9 witness: a concrete validated response (with confidence 0) parses
successfully with confidence inside the unit interval. -/
theorem parseAIResponse_title_confidence_witness :
    (match parseAIResponse (.object jsonConfZeroEx) with
      | .success a => (a.title.length ≤ 100 ∧ 0 ≤ a.confidence ∧ a.confidence ≤ 1)
      | .failure _ => False) := by
  obtain ⟨a, ha, -, hlen, -, h0, h1⟩ :=
    parseAIResponse_title_confidence jsonConfZeroEx
      (by decide) (by decide) (by decide) (by decide)
  rw [ha]
  exact ⟨hlen, h0, h1⟩

/-- C9 counterexample: the claim's clamp-only description fails at confidence
exactly 0 — the JS falsy check turns it into 0.5, while the clamp of 0 is 0. -/
theorem parseAIResponse_conf_zero_cex :
    parseAIResponse (.object jsonConfZeroEx) =
      .success
        { title := "Add login form", description := "Adds the login form.",
          storyType := "feature", estimatedPoints := 3,
          suggestedLabels := ["frontend"], confidence := 1/2 } ∧
    max 0 (min 1 (0 : Rat)) = 0 ∧
    ((1 : Rat)/2) ≠ max 0 (min 1 (0 : Rat)) := by
  refine ⟨?_, by norm_num, by norm_num⟩
  rw [parseAIResponse_eq_of_valid jsonConfZeroEx
    (by decide) (by decide) (by decide) (by decide)]
  have htr : truncate jsonConfZeroEx.title 100 = "Add login form" := by
    unfold truncate
    rw [if_pos (by decide)]
    rfl
  have hcf : max 0 (min 1 (confidenceOrHalf jsonConfZeroEx.confidence)) =
      (1 : Rat)/2 := by
    show max 0 (min 1 (confidenceOrHalf (some 0))) = (1 : Rat)/2
    norm_num [confidenceOrHalf]
  rw [htr, hcf]
  rfl

/-- C10: a response passing the title, description, kind and points checks
parses successfully even when `suggestedLabels` is absent or not an array;
the draft then carries the empty label list. -/
theorem parseAIResponse_labels_default (j : ParsedAIJson)
    (ht : 0 < (jsTrim j.title).length)
    (hd : 0 < (jsTrim j.description).length)
    (hk : (["feature", "bug", "chore"].contains j.storyType) = true)
    (hp : (([1, 2, 3, 5, 8] : List Int).contains j.estimatedPoints) = true)
    (hl : j.suggestedLabels = .absent ∨ j.suggestedLabels = .notArray) :
    ∃ a, parseAIResponse (.object j) = .success a ∧ a.suggestedLabels = [] := by
  refine ⟨_, parseAIResponse_eq_of_valid j ht hd hk hp, ?_⟩
  rcases hl with hl | hl <;> rw [hl]

/-- C10 witness: a concrete validated response with a non-array
`suggestedLabels` parses to a draft with no labels. -/
theorem parseAIResponse_labels_default_witness :
    (match parseAIResponse (.object jsonLabelsBadEx) with
      | .success a => a.suggestedLabels
      | .failure _ => ["never"]) = [] := by
  obtain ⟨a, ha, hl⟩ :=
    parseAIResponse_labels_default jsonLabelsBadEx
      (by decide) (by decide) (by decide) (by decide) (Or.inr rfl)
  rw [ha]
  exact hl

/-- C3: the fallback draft is a pure function of the ChangeSet (it is a Lean
function of `GitAnalysis` alone) whose kind is "bug" exactly when some commit
message case-insensitively contains "fix" (else "feature"), whose point
estimate follows the 10/5 file-count thresholds, whose labels contain
"testing"/"frontend"/"backend" exactly under the path conditions, and whose
confidence is exactly 0.3. -/
theorem createFallbackAnalysis_rules (g : GitAnalysis) :
    (createFallbackAnalysis g).confidence = 3/10 ∧
    ((createFallbackAnalysis g).storyType = "bug" ↔
      ∃ c ∈ g.commits, containsSub (toLowerAscii c.message) "fix" = true) ∧
    ((createFallbackAnalysis g).storyType = "feature" ↔
      ¬ ∃ c ∈ g.commits, containsSub (toLowerAscii c.message) "fix" = true) ∧
    (createFallbackAnalysis g).estimatedPoints =
      (if 10 < g.fileChanges.length then 5
        else if 5 < g.fileChanges.length then 3 else 1) ∧
    ("testing" ∈ (createFallbackAnalysis g).suggestedLabels ↔
      ∃ f ∈ g.fileChanges,
        (containsSub f.path "test" || containsSub f.path "spec") = true) ∧
    ("frontend" ∈ (createFallbackAnalysis g).suggestedLabels ↔
      ∃ f ∈ g.fileChanges,
        (containsSub f.path ".tsx" || containsSub f.path ".vue" ||
          containsSub f.path ".jsx") = true) ∧
    ("backend" ∈ (createFallbackAnalysis g).suggestedLabels ↔
      ∃ f ∈ g.fileChanges,
        (containsSub f.path "api" || containsSub f.path "controller") = true) := by
  cases hFix : g.commits.any
      (fun c => containsSub (toLowerAscii c.message) "fix") <;>
  cases hUI : g.fileChanges.any
      (fun f => containsSub f.path ".tsx" || containsSub f.path ".vue" ||
        containsSub f.path ".jsx") <;>
  cases hAPI : g.fileChanges.any
      (fun f => containsSub f.path "api" || containsSub f.path "controller") <;>
  cases hTest : g.fileChanges.any
      (fun f => containsSub f.path "test" || containsSub f.path "spec") <;>
    simp [createFallbackAnalysis, hFix, hUI, hAPI, hTest, ← List.any_eq_true] <;>
    simp_all

/-- C3 witness: the spec's scenario — one "fix: null pointer" commit, three
changed files, one of them a spec file — yields kind "bug", one point, a
"testing" label and confidence 0.3. -/
theorem createFallbackAnalysis_rules_witness :
    (createFallbackAnalysis gaScenarioEx).storyType = "bug" ∧
    (createFallbackAnalysis gaScenarioEx).estimatedPoints = 1 ∧
    "testing" ∈ (createFallbackAnalysis gaScenarioEx).suggestedLabels ∧
    (createFallbackAnalysis gaScenarioEx).confidence = 3/10 := by
  have h := createFallbackAnalysis_rules gaScenarioEx
  refine ⟨?_, ?_, ?_, h.1⟩
  · exact h.2.1.mpr
      ⟨{ hash := "abc1234", message := "fix: null pointer", author := "dev",
         date := "2024-01-01" }, by decide, by decide⟩
  · rw [h.2.2.2.1]
    decide
  · exact h.2.2.2.2.1.mpr
      ⟨{ path := "src/auth/login.spec.ts", additions := 9, deletions := 0,
         status := "modified" }, by decide, by decide⟩

/-- Helper: a `success` of `createStoryBranch` always carries the computed
new branch name. -/
theorem createStoryBranch_success_name (currentBranch : String)
    (storyId : StoryIdArg) (env : BranchEnv) (nb : String)
    (h : (createStoryBranch currentBranch storyId env).1 = .success nb) :
    nb = storyIdToBranchPre storyId ++ "-" ++ sanitizeBranchName currentBranch := by
  unfold createStoryBranch at h
  cases hc : env.createBranchResult with
  | failure e => rw [hc] at h; exact absurd h (by simp)
  | success u =>
    rw [hc] at h
    cases hp : env.pushResult with
    | failure e => rw [hp] at h; exact absurd h (by simp)
    | success u =>
      rw [hp] at h
      dsimp only at h
      injection h with h
      exact h.symm

/-- C4 (amended): for every successful pipeline run — either tracker — the
renamed branch is `sc-` followed by the created issue's id coerced to a
number (Shortcut's numeric id as-is, Jira's id string through
`parseInt(id, 10)`), a hyphen, and the sanitized original branch name; the
Jira tracker-native key is never the prefix because
`executeAnalysisPipeline` converts the id to a number before calling the
rewriter. -/
theorem executeAnalysisPipeline_branch_shape (config : AppConfig)
    (env : PipelineEnv) (p : AnalysisPipeline)
    (h : executeAnalysisPipeline config env = .success p) :
    p.updatedBranch =
      "sc-" ++ jsNumberToString (createdIdAsNumber p.createdStory.id) ++ "-" ++
        sanitizeBranchName p.gitAnalysis.currentBranch := by
  unfold executeAnalysisPipeline at h
  cases hg : analyzeGitChanges config env.git with
  | failure e => rw [hg] at h; exact absurd h (by simp)
  | success gitData =>
    rw [hg] at h
    dsimp only at h
    cases ha : analyzeWithAI gitData env.ai with
    | failure e => rw [ha] at h; exact absurd h (by simp)
    | success aiData =>
      rw [ha] at h
      dsimp only at h
      cases hi : (createIssue aiData config env.tracker).1 with
      | failure e => rw [hi] at h; exact absurd h (by simp)
      | success issueData =>
        rw [hi] at h
        dsimp only at h
        cases hb : (createStoryBranch gitData.currentBranch
            (.num (createdIdAsNumber issueData.id)) env.branch).1 with
        | failure e => rw [hb] at h; exact absurd h (by simp)
        | success branchData =>
          rw [hb] at h
          injection h with h
          subst h
          dsimp only
          exact createStoryBranch_success_name _ _ _ _ hb

/-- C4 witness (amended claim): the concrete Jira run instantiates the
amended branch shape. -/
theorem executeAnalysisPipeline_branch_shape_witness :
    pJiraEx.updatedBranch =
      "sc-" ++ jsNumberToString (createdIdAsNumber pJiraEx.createdStory.id) ++
        "-" ++ sanitizeBranchName pJiraEx.gitAnalysis.currentBranch :=
  executeAnalysisPipeline_branch_shape cfgJiraEx envJiraEx pJiraEx (by rfl)

/-- C4 counterexample: a successful Jira pipeline run whose created issue has
tracker-native key "PROJ-7" renames the branch to "sc-10023-add-login" — the
prefix is not the tracker-native key string. -/
theorem executeAnalysisPipeline_jira_key_cex :
    cfgJiraEx.tracker = "jira" ∧
    executeAnalysisPipeline cfgJiraEx envJiraEx = .success pJiraEx ∧
    pJiraEx.createdStory.name = "PROJ-7" ∧
    pJiraEx.updatedBranch = "sc-10023-add-login" ∧
    pJiraEx.updatedBranch ≠
      "PROJ-7" ++ "-" ++ sanitizeBranchName pJiraEx.gitAnalysis.currentBranch := by
  refine ⟨rfl, by rfl, rfl, rfl, by decide⟩

/-- Helper: the `sc` matcher recognises exactly the declarative form. -/
theorem scStoryIdTest_iff (s : String) :
    scStoryIdTest s = true ↔ ScPrefixForm s := by
  unfold scStoryIdTest ScPrefixForm
  generalize s.toList = cs
  rcases cs with _ | ⟨c1, _ | ⟨c2, _ | ⟨c3, _ | ⟨c4, t4⟩⟩⟩⟩ <;> simp
  constructor
  · rintro ⟨⟨⟨h1, h2⟩, h3⟩, h4⟩
    exact ⟨c4, ⟨h1, h2, h3, rfl⟩, h4⟩
  · rintro ⟨d, ⟨h1, h2, h3, h4⟩, hd⟩
    subst h4
    exact ⟨⟨⟨h1, h2⟩, h3⟩, hd⟩

/-- Helper: after the first uppercase letter, the tail matcher of the JIRA
key regex recognises a possibly-empty further uppercase run, a hyphen and a
digit. The maximal-munch recursion agrees with the backtracking regex
because a shorter uppercase run would have to end on an uppercase letter,
which is never the required hyphen. -/
theorem jiraKeyTail_iff (cs : List Char) :
    jiraKeyTail cs = true ↔
      ∃ us d rest, cs = us ++ '-' :: d :: rest ∧
        (∀ c ∈ us, isUpperAZ c = true) ∧ isDigitChar d = true := by
  induction cs with
  | nil =>
    simp only [jiraKeyTail, Bool.false_eq_true, false_iff]
    rintro ⟨us, d, rest, heq, -, -⟩
    cases us <;> simp at heq
  | cons c cs ih =>
    by_cases hu : isUpperAZ c = true
    · rw [show jiraKeyTail (c :: cs) = jiraKeyTail cs by
        simp [jiraKeyTail, hu], ih]
      constructor
      · rintro ⟨us, d, rest, heq, hup, hd⟩
        exact ⟨c :: us, d, rest, by rw [heq]; rfl, by
          intro x hx
          rcases List.mem_cons.mp hx with h | h
          · rw [h]; exact hu
          · exact hup x h, hd⟩
      · rintro ⟨us, d, rest, heq, hup, hd⟩
        rcases us with _ | ⟨u, us⟩
        · exfalso
          injection heq with e1 _
          rw [e1] at hu
          exact absurd hu (by decide)
        · injection heq with e1 e2
          subst e1
          exact ⟨us, d, rest, e2, fun x hx => hup x (List.mem_cons_of_mem _ hx), hd⟩
    · by_cases hh : c = '-'
      · subst hh
        rcases cs with _ | ⟨d0, rest0⟩
        · constructor
          · intro h
            exact absurd h (by decide)
          · rintro ⟨us, d, rest, heq, hup, hd⟩
            rcases us with _ | ⟨u, us⟩
            · simp at heq
            · injection heq with e1 e2
              cases us <;> simp at e2
        · have hred : jiraKeyTail ('-' :: d0 :: rest0) = isDigitChar d0 := rfl
          rw [hred]
          constructor
          · intro h
            exact ⟨[], d0, rest0, rfl, by simp, h⟩
          · rintro ⟨us, d, rest, heq, hup, hd⟩
            rcases us with _ | ⟨u, us⟩
            · injection heq with e1 e2
              injection e2 with e3 e4
              rw [e3]
              exact hd
            · exfalso
              injection heq with e1 _
              have := hup u (List.mem_cons_self u us)
              rw [← e1] at this
              exact absurd this (by decide)
      · have hred : jiraKeyTail (c :: cs) = false := by
          unfold jiraKeyTail
          rw [if_neg hu, if_neg hh]
        rw [hred]
        simp only [Bool.false_eq_true, false_iff]
        rintro ⟨us, d, rest, heq, hup, hd⟩
        rcases us with _ | ⟨u, us⟩
        · injection heq with e1 _
          exact hh e1
        · injection heq with e1 _
          have := hup u (List.mem_cons_self u us)
          rw [← e1] at this
          exact hu this

/-- Helper: the JIRA key matcher recognises exactly the declarative form. -/
theorem jiraKeyTest_iff (s : String) :
    jiraKeyTest s = true ↔ JiraKeyForm s := by
  unfold jiraKeyTest JiraKeyForm
  generalize s.toList = cs
  rcases cs with _ | ⟨c, rest⟩
  · simp only [Bool.false_eq_true, false_iff]
    rintro ⟨us, d, r2, heq, hne, -, -⟩
    cases us <;> simp at heq
  · rw [Bool.and_eq_true, jiraKeyTail_iff]
    constructor
    · rintro ⟨hu, us, d, r2, heq, hup, hd⟩
      refine ⟨c :: us, d, r2, by rw [heq]; rfl, by simp, ?_, hd⟩
      intro x hx
      rcases List.mem_cons.mp hx with h | h
      · rw [h]; exact hu
      · exact hup x h
    · rintro ⟨us, d, r2, heq, hne, hup, hd⟩
      rcases us with _ | ⟨u, us⟩
      · exact absurd rfl hne
      · injection heq with e1 e2
        subst e1
        exact ⟨hup c (List.mem_cons_self c us), us, d, r2, e2,
          fun x hx => hup x (List.mem_cons_of_mem _ hx), hd⟩

/-- C2: the eligibility check declines a branch exactly when its name has the
Shortcut story prefix shape, or the JIRA key prefix shape, or is literally a
member of the skip list. -/
theorem shouldSkipBranch_iff (branch : String) (skipBranches : List String) :
    shouldSkipBranch branch skipBranches = true ↔
      ScPrefixForm branch ∨ JiraKeyForm branch ∨ branch ∈ skipBranches := by
  have helem : List.elem branch skipBranches = true ↔ branch ∈ skipBranches :=
    List.elem_iff
  rw [← scStoryIdTest_iff, ← jiraKeyTest_iff, ← helem]
  unfold shouldSkipBranch
  cases h1 : scStoryIdTest branch <;>
  cases h2 : jiraKeyTest branch <;>
  cases h3 : List.elem branch skipBranches <;>
    simp [List.contains, h1, h2, h3] <;>
    simp_all

/-- C2 witness: a JIRA-keyed branch is skipped, via the declarative form. -/
theorem shouldSkipBranch_iff_witness :
    shouldSkipBranch "PROJ-123-login" ["main"] = true :=
  (shouldSkipBranch_iff "PROJ-123-login" ["main"]).mpr
    (Or.inr (Or.inl ⟨['P', 'R', 'O', 'J'], '1', "23-login".toList,
      by decide, by decide, by decide, by decide⟩))

/-- Helper: every character the class-replacement emits is in `[a-z0-9-]`. -/
theorem allowedChar_replaceDisallowed (c : Char) :
    allowedChar (replaceDisallowed c) = true := by
  unfold replaceDisallowed
  by_cases h : allowedChar c = true
  · rw [if_pos h]
    exact h
  · rw [if_neg h]
    decide

/-- Helper: the class-replacement fixes characters already in `[a-z0-9-]`. -/
theorem replaceDisallowed_of_allowed {c : Char} (h : allowedChar c = true) :
    replaceDisallowed c = c := by
  unfold replaceDisallowed
  rw [if_pos h]

/-- Helper: lowercasing fixes characters already in `[a-z0-9-]` (no such
character is an uppercase letter). -/
theorem toLowerChar_of_allowed {c : Char} (h : allowedChar c = true) :
    toLowerChar c = c := by
  have hno : ¬ isUpperAZ c = true := by
    unfold allowedChar isLowerAZ isDigitChar at h
    unfold isUpperAZ
    simp only [Bool.or_eq_true, decide_eq_true_eq] at h ⊢
    rcases h with (h | h) | h
    · omega
    · omega
    · subst h
      decide
  unfold toLowerChar
  rw [if_neg hno]

/-- Helper: hyphen-run collapse only keeps characters of its input. -/
theorem mem_of_mem_collapseHyphens {c : Char} :
    ∀ {cs : List Char}, c ∈ collapseHyphens cs → c ∈ cs := by
  intro cs
  induction cs using collapseHyphens.induct with
  | case1 =>
    intro h
    exact absurd h (by simp [collapseHyphens])
  | case2 d =>
    intro h
    simpa [collapseHyphens] using h
  | case3 a b rest hab ih =>
    intro h
    simp only [collapseHyphens, if_pos hab] at h
    exact List.mem_cons_of_mem a (ih h)
  | case4 a b rest hab ih =>
    intro h
    simp only [collapseHyphens, if_neg hab] at h
    rcases List.mem_cons.mp h with h | h
    · rw [h]
      exact List.mem_cons_self a _
    · exact List.mem_cons_of_mem a (ih h)

/-- Helper: hyphen-run collapse preserves the head character. -/
theorem collapseHyphens_cons (c : Char) (cs : List Char) :
    ∃ t, collapseHyphens (c :: cs) = c :: t := by
  induction cs generalizing c with
  | nil => exact ⟨[], rfl⟩
  | cons b rest ih =>
    by_cases hab : c = '-' ∧ b = '-'
    · obtain ⟨t, ht⟩ := ih b
      refine ⟨t, ?_⟩
      rw [show collapseHyphens (c :: b :: rest) = collapseHyphens (b :: rest) by
        simp only [collapseHyphens, if_pos hab]]
      rw [ht, hab.1, hab.2]
    · exact ⟨collapseHyphens (b :: rest), by
        simp only [collapseHyphens, if_neg hab]⟩

/-- Helper: after hyphen-run collapse no two adjacent characters are both
hyphens. -/
theorem chain'_collapseHyphens (cs : List Char) :
    List.Chain' HyphenFree (collapseHyphens cs) := by
  induction cs using collapseHyphens.induct with
  | case1 => simp [collapseHyphens]
  | case2 d => simp [collapseHyphens]
  | case3 a b rest hab ih =>
    simpa only [collapseHyphens, if_pos hab] using ih
  | case4 a b rest hab ih =>
    rw [show collapseHyphens (a :: b :: rest) = a :: collapseHyphens (b :: rest) by
      simp only [collapseHyphens, if_neg hab]]
    obtain ⟨t, ht⟩ := collapseHyphens_cons b rest
    rw [ht]
    rw [ht] at ih
    exact List.chain'_cons.mpr ⟨hab, ih⟩

/-- Helper: hyphen-run collapse fixes a list with no adjacent hyphen pair. -/
theorem collapseHyphens_of_chain' :
    ∀ {cs : List Char}, List.Chain' HyphenFree cs → collapseHyphens cs = cs := by
  intro cs
  induction cs using collapseHyphens.induct with
  | case1 =>
    intro _
    rfl
  | case2 d =>
    intro _
    rfl
  | case3 a b rest hab ih =>
    intro h
    exact absurd hab (List.chain'_cons.mp h).1
  | case4 a b rest hab ih =>
    intro h
    rw [show collapseHyphens (a :: b :: rest) = a :: collapseHyphens (b :: rest) by
      simp only [collapseHyphens, if_neg hab]]
    rw [ih (List.chain'_cons.mp h).2]

/-- Helper: the leading strip drops a leading hyphen and nothing else. -/
theorem dropLeadingHyphen_eq (cs : List Char) :
    dropLeadingHyphen cs = cs ∨ dropLeadingHyphen cs = cs.tail := by
  unfold dropLeadingHyphen
  split
  · exact Or.inr rfl
  · exact Or.inl rfl

/-- Helper: the leading strip fixes a list that does not start with a
hyphen. -/
theorem dropLeadingHyphen_of_head {cs : List Char} (h : cs.head? ≠ some '-') :
    dropLeadingHyphen cs = cs := by
  unfold dropLeadingHyphen
  split
  · exact absurd rfl h
  · rfl

/-- Helper: after the leading strip of a hyphen-pair-free list, the head is
not a hyphen. -/
theorem head?_dropLeadingHyphen {cs : List Char}
    (h : List.Chain' HyphenFree cs) :
    (dropLeadingHyphen cs).head? ≠ some '-' := by
  cases cs with
  | nil => simp [dropLeadingHyphen]
  | cons c t =>
    by_cases hc : c = '-'
    · subst hc
      rw [show dropLeadingHyphen ('-' :: t) = t from rfl]
      cases t with
      | nil => simp
      | cons b t2 =>
        simp only [List.head?_cons, ne_eq, Option.some.injEq]
        intro hb
        exact (List.chain'_cons.mp h).1 ⟨rfl, hb⟩
    · rw [dropLeadingHyphen_of_head (by simp [hc])]
      simpa using hc

/-- Helper: the leading strip only keeps characters of its input. -/
theorem mem_of_mem_dropLeadingHyphen {c : Char} {cs : List Char}
    (h : c ∈ dropLeadingHyphen cs) : c ∈ cs := by
  rcases dropLeadingHyphen_eq cs with he | he
  · rw [he] at h
    exact h
  · rw [he] at h
    exact List.mem_of_mem_tail h

/-- Helper: the leading strip preserves hyphen-pair-freeness. -/
theorem chain'_dropLeadingHyphen {cs : List Char}
    (h : List.Chain' HyphenFree cs) :
    List.Chain' HyphenFree (dropLeadingHyphen cs) := by
  rcases dropLeadingHyphen_eq cs with he | he <;> rw [he]
  · exact h
  · exact h.tail

/-- Helper: `HyphenFree` is symmetric, so it survives list reversal. -/
theorem chain'_hyphenFree_reverse {cs : List Char}
    (h : List.Chain' HyphenFree cs) :
    List.Chain' HyphenFree cs.reverse := by
  rw [List.chain'_reverse]
  exact h.imp fun a b hab => fun hba => hab ⟨hba.2, hba.1⟩

/-- Helper: after the trailing strip of a hyphen-pair-free list, the last
character is not a hyphen. -/
theorem getLast?_dropTrailingHyphen {cs : List Char}
    (h : List.Chain' HyphenFree cs) :
    (dropTrailingHyphen cs).getLast? ≠ some '-' := by
  unfold dropTrailingHyphen
  rw [List.getLast?_reverse]
  exact head?_dropLeadingHyphen (chain'_hyphenFree_reverse h)

/-- Helper: the trailing strip does not create a leading hyphen. -/
theorem head?_dropTrailingHyphen {cs : List Char} (h : cs.head? ≠ some '-') :
    (dropTrailingHyphen cs).head? ≠ some '-' := by
  unfold dropTrailingHyphen
  rw [List.head?_reverse]
  rcases dropLeadingHyphen_eq cs.reverse with he | he <;> rw [he]
  · rw [List.getLast?_reverse]
    exact h
  · rcases hcs : cs.reverse with _ | ⟨a, t⟩
    · simp
    · rcases t with _ | ⟨b, t2⟩
      · simp
      · rw [show (a :: b :: t2).tail = b :: t2 from rfl]
        rw [← List.getLast?_cons_cons, ← hcs, List.getLast?_reverse]
        exact h

/-- Helper: the trailing strip only keeps characters of its input. -/
theorem mem_of_mem_dropTrailingHyphen {c : Char} {cs : List Char}
    (h : c ∈ dropTrailingHyphen cs) : c ∈ cs := by
  unfold dropTrailingHyphen at h
  rw [List.mem_reverse] at h
  exact List.mem_reverse.mp (mem_of_mem_dropLeadingHyphen h)

/-- Helper: the trailing strip preserves hyphen-pair-freeness. -/
theorem chain'_dropTrailingHyphen {cs : List Char}
    (h : List.Chain' HyphenFree cs) :
    List.Chain' HyphenFree (dropTrailingHyphen cs) :=
  chain'_hyphenFree_reverse
    (chain'_dropLeadingHyphen (chain'_hyphenFree_reverse h))

/-- Helper: the trailing strip fixes a list that does not end with a
hyphen. -/
theorem dropTrailingHyphen_of_getLast {cs : List Char}
    (h : cs.getLast? ≠ some '-') :
    dropTrailingHyphen cs = cs := by
  unfold dropTrailingHyphen
  rw [dropLeadingHyphen_of_head (by rw [List.head?_reverse]; exact h),
    List.reverse_reverse]

/-- Helper: a map that fixes every member fixes the list. -/
theorem map_fix_of_mem {f : Char → Char} :
    ∀ cs : List Char, (∀ c ∈ cs, f c = c) → cs.map f = cs := by
  intro cs h
  induction cs with
  | nil => rfl
  | cons c t ih =>
    rw [List.map_cons, h c (List.mem_cons_self c t),
      ih fun d hd => h d (List.mem_cons_of_mem c hd)]

/-- Helper: the sanitize pipeline yields only `[a-z0-9-]` characters, no
adjacent hyphen pair, and no hyphen at either edge. -/
theorem sanitizeList_shape (cs : List Char) :
    (∀ c ∈ sanitizeList cs, allowedChar c = true) ∧
    List.Chain' HyphenFree (sanitizeList cs) ∧
    (sanitizeList cs).head? ≠ some '-' ∧
    (sanitizeList cs).getLast? ≠ some '-' := by
  unfold sanitizeList
  have hchain := chain'_collapseHyphens ((cs.map toLowerChar).map replaceDisallowed)
  have hchain2 := chain'_dropLeadingHyphen hchain
  refine ⟨?_, chain'_dropTrailingHyphen hchain2,
    head?_dropTrailingHyphen (head?_dropLeadingHyphen hchain),
    getLast?_dropTrailingHyphen hchain2⟩
  intro c hc
  have h3 := mem_of_mem_collapseHyphens
    (mem_of_mem_dropLeadingHyphen (mem_of_mem_dropTrailingHyphen hc))
  obtain ⟨d, -, rfl⟩ := List.mem_map.mp h3
  exact allowedChar_replaceDisallowed d

/-- Helper: the sanitize pipeline fixes any list already in sanitized
shape. -/
theorem sanitizeList_of_shape {cs : List Char}
    (h1 : ∀ c ∈ cs, allowedChar c = true)
    (h2 : List.Chain' HyphenFree cs)
    (h3 : cs.head? ≠ some '-')
    (h4 : cs.getLast? ≠ some '-') :
    sanitizeList cs = cs := by
  unfold sanitizeList
  rw [map_fix_of_mem cs fun c hc => toLowerChar_of_allowed (h1 c hc)]
  rw [map_fix_of_mem cs fun c hc => replaceDisallowed_of_allowed (h1 c hc)]
  rw [collapseHyphens_of_chain' h2, dropLeadingHyphen_of_head h3,
    dropTrailingHyphen_of_getLast h4]

/-- Helper: a hyphen-pair-free list has no two consecutive hyphens anywhere. -/
theorem chain'_no_double_hyphen {l : List Char}
    (h : List.Chain' HyphenFree l) :
    ¬ ∃ s t, l = s ++ '-' :: '-' :: t := by
  rintro ⟨s, t, rfl⟩
  revert h
  induction s with
  | nil =>
    intro h
    exact (List.chain'_cons.mp h).1 ⟨rfl, rfl⟩
  | cons a s ih =>
    intro h
    exact ih h.tail

/-- C8: `sanitizeBranchName` is idempotent, and its output never starts with
a hyphen, never ends with a hyphen, and never contains two consecutive
hyphens. -/
theorem sanitizeBranchName_spec (x : String) :
    sanitizeBranchName (sanitizeBranchName x) = sanitizeBranchName x ∧
    (sanitizeBranchName x).toList.head? ≠ some '-' ∧
    (sanitizeBranchName x).toList.getLast? ≠ some '-' ∧
    ¬ ∃ s t, (sanitizeBranchName x).toList = s ++ '-' :: '-' :: t := by
  obtain ⟨h1, h2, h3, h4⟩ := sanitizeList_shape x.toList
  have htl : (sanitizeBranchName x).toList = sanitizeList x.toList := rfl
  refine ⟨?_, ?_, ?_, ?_⟩
  · show String.mk (sanitizeList (sanitizeBranchName x).toList) = sanitizeBranchName x
    rw [htl, sanitizeList_of_shape h1 h2 h3 h4]
    rfl
  · rw [htl]
    exact h3
  · rw [htl]
    exact h4
  · rw [htl]
    exact chain'_no_double_hyphen h2

/-- C8 witness: idempotence observed on a concrete messy branch name. -/
theorem sanitizeBranchName_spec_witness :
    sanitizeBranchName (sanitizeBranchName "Feat/My--Branch!") =
      sanitizeBranchName "Feat/My--Branch!" :=
  (sanitizeBranchName_spec "Feat/My--Branch!").1

end WTJ
